import Mathlib

/-!
Verification development for the `terraform-provider-redisacl` repository.

The definitions below are a shallow embedding of the Go code in
`internal/provider/helpers.go` and `internal/provider/resource_acl_user.go`:

* Terraform framework nullable attributes (`types.Bool`, `types.String`,
  `types.List`) are modelled as `Option` values (`none` = null); their
  `ValueBool` / `ValueString` accessors, which return the zero value on a
  null attribute, are modelled with `Option.getD`.
* Go `interface{}` values handed to the ACL parser are modelled by the
  inductive type `GoVal`: strings, arrays of values, and `other` standing
  for a value of any type that is neither a string nor an array.
* A failed Go type assertion (`x.(string)` without the comma-ok form) or an
  out-of-range index is a runtime panic; the parser model records this as
  the outcome `PErr.panic`, while `diags.AddError "Parse Error" msg`
  followed by `return` is recorded as `PErr.diag msg`.
* The backend client (`UniversalClient`) is modelled by the outcomes the
  code inspects (`DoOutcome`, error slots for `ACLSetUser`/`ACLDelUser`),
  and each resource operation returns its diagnostic result together with
  the list of backend calls it issued.
-/

/-- Go `strings.Fields`: split a string around runs of whitespace,
producing no empty tokens.  `fieldsAux cs acc` scans the character list
`cs`, with `acc` holding the (possibly empty) current token. -/
def fieldsAux : List Char → List Char → List String
  | [], acc => if acc.isEmpty then [] else [String.mk acc]
  | c :: cs, acc =>
    if c.isWhitespace then
      if acc.isEmpty then fieldsAux cs [] else String.mk acc :: fieldsAux cs []
    else fieldsAux cs (acc ++ [c])

/-- Go `strings.Fields` on a `String`. -/
def fields (s : String) : List String := fieldsAux s.toList []

/-- Go `strings.Join(parts, " ")`. -/
def joinWithSpace : List String → String
  | [] => ""
  | [s] => s
  | s :: rest => s ++ " " ++ joinWithSpace rest

/-- Model of a Go `interface{}` value as received from the backend client:
a string, an array (`[]interface{}`), or a value of any other dynamic type. -/
inductive GoVal where
  | str : String → GoVal
  | arr : List GoVal → GoVal
  | other : GoVal

/-- Whether a `GoVal` is a string (a Go `v.(string)` assertion succeeds). -/
def GoVal.isStr : GoVal → Bool
  | .str _ => true
  | _ => false

/-- Whether a `GoVal` is an array (a Go `v.([]interface{})` assertion succeeds). -/
def GoVal.isArr : GoVal → Bool
  | .arr _ => true
  | _ => false

/-- The resource data model `ACLUserResourceModel` from
`resource_acl_user.go`; every Terraform attribute is nullable, hence
`Option`. -/
structure ACLUserResourceModel where
  id : Option String := none
  name : Option String := none
  enabled : Option Bool := none
  passwords : Option (List String) := none
  keys : Option String := none
  channels : Option String := none
  commands : Option String := none
  selectors : Option (List String) := none
  allowSelfMutation : Option Bool := none
deriving DecidableEq

/-- The function `buildACLSetUserRules` of `helpers.go` (lines 14-66),
translated clause by clause: start from `["reset"]` and append the
enabled / passwords / keys / channels / commands / selectors rule tokens
in the source's order. -/
def buildACLSetUserRules (data : ACLUserResourceModel) : List String :=
  let rules := ["reset"]
  let rules :=
    match data.enabled with
    | none => rules ++ ["on"]
    | some b => if b then rules ++ ["on"] else rules ++ ["off"]
  let rules :=
    match data.passwords with
    | none => rules
    | some ps =>
      let rules := rules ++ ["resetpass"]
      if ps.length = 0 then rules ++ ["nopass"]
      else rules ++ ps.map (fun password => ">" ++ password)
  let rules :=
    match data.keys with
    | none => rules ++ ["~*"]
    | some k => rules ++ ["resetkeys"] ++ fields k
  let rules :=
    match data.channels with
    | none => rules ++ ["&*"]
    | some c => rules ++ ["resetchannels"] ++ fields c
  let rules :=
    match data.commands with
    | none => rules ++ ["+@all"]
    | some c => rules ++ ["-@all"] ++ fields c
  let rules :=
    match data.selectors with
    | none => rules
    | some sels => rules ++ sels.map (fun selector => "(" ++ selector ++ ")")
  rules

/-- The tokens `buildACLSetUserRules` emits for the `enabled` field. -/
def enabledSeg : Option Bool → List String
  | none => ["on"]
  | some b => if b then ["on"] else ["off"]

/-- The tokens `buildACLSetUserRules` emits for the `passwords` field. -/
def passwordsSeg : Option (List String) → List String
  | none => []
  | some ps =>
    "resetpass" :: (if ps.length = 0 then ["nopass"] else ps.map (fun password => ">" ++ password))

/-- The tokens `buildACLSetUserRules` emits for the `keys` field. -/
def keysSeg : Option String → List String
  | none => ["~*"]
  | some k => "resetkeys" :: fields k

/-- The tokens `buildACLSetUserRules` emits for the `channels` field. -/
def channelsSeg : Option String → List String
  | none => ["&*"]
  | some c => "resetchannels" :: fields c

/-- The tokens `buildACLSetUserRules` emits for the `commands` field
(`helpers.go` lines 52-57). -/
def commandsSeg : Option String → List String
  | none => ["+@all"]
  | some c => "-@all" :: fields c

/-- The tokens `buildACLSetUserRules` emits for the `selectors` field. -/
def selectorsSeg : Option (List String) → List String
  | none => []
  | some sels => sels.map (fun selector => "(" ++ selector ++ ")")

/-- The sequential appends of `buildACLSetUserRules` decompose into the
per-field segments in source order. -/
theorem buildACLSetUserRules_eq (d : ACLUserResourceModel) :
    buildACLSetUserRules d =
      "reset" :: (enabledSeg d.enabled ++ passwordsSeg d.passwords ++ keysSeg d.keys
        ++ channelsSeg d.channels ++ commandsSeg d.commands ++ selectorsSeg d.selectors) := by
  unfold buildACLSetUserRules enabledSeg passwordsSeg keysSeg channelsSeg commandsSeg selectorsSeg
  rcases d.enabled with _ | (_ | _) <;>
  rcases d.passwords with _ | (_ | ⟨p, ps⟩) <;>
  rcases d.keys with _ | k <;>
  rcases d.channels with _ | c <;>
  rcases d.commands with _ | cm <;>
  rcases d.selectors with _ | sels <;>
  simp [List.append_assoc]

/-- Outcome of a run of `parseACLUser`: a diagnostic added via
`diags.AddError "Parse Error" msg` followed by `return`, or a Go runtime
panic (failed bare type assertion / index out of range). -/
inductive PErr where
  | diag : String → PErr
  | panic : PErr
deriving DecidableEq

/-- Go loop `for _, p := range vv { parts = append(parts, p.(string)) }`:
collects the strings, panicking (`none`) at the first non-string element. -/
def allStrings : List GoVal → Option (List String)
  | [] => some []
  | .str s :: rest => (allStrings rest).map (fun l => s :: l)
  | _ :: _ => none

/-- The `flags` case of `parseACLUser`: scan the flag array, setting
`enabled` to true on an `"on"` flag; a non-string element is a panic
(`f.(string)` without comma-ok). -/
def parseFlags : List GoVal → ACLUserResourceModel → ACLUserResourceModel × Option PErr
  | [], m => (m, none)
  | .str f :: rest, m =>
    if f = "on" then parseFlags rest { m with enabled := some true }
    else parseFlags rest m
  | _ :: _, m => (m, some .panic)

/-- The string-or-array handling of a selector sub-value inside
`parseACLUser` (helpers.go lines 145-158). -/
def selValue : GoVal → Except PErr String
  | .str s => .ok s
  | .arr vv =>
    match allStrings vv with
    | some parts => .ok (joinWithSpace parts)
    | none => .error .panic
  | .other => .error (.diag "selector value not string or array")

/-- The inner `for j := 0; j < len(sel); j += 2` loop of the `selectors`
case: collect the sub-values whose key is `commands`, `keys` or
`channels`, in the order the keys appear in the sub-sequence.  An odd pair
or a non-string key is a panic. -/
def parseOneSelector : List GoVal → Except PErr (List String)
  | [] => .ok []
  | [_] => .error .panic
  | sk :: svI :: rest =>
    match sk with
    | .str k =>
      match selValue svI with
      | .ok sv =>
        match parseOneSelector rest with
        | .ok parts =>
          .ok (if k = "commands" ∨ k = "keys" ∨ k = "channels" then sv :: parts else parts)
        | .error e => .error e
      | .error e => .error e
    | _ => .error .panic

/-- The outer loop of the `selectors` case: every selector element must be
an array, each yielding one space-joined selector string; the first error
aborts (the partially built list is discarded by the early `return`). -/
def parseSelectors : List GoVal → Except PErr (List String)
  | [] => .ok []
  | .arr sel :: rest =>
    match parseOneSelector sel with
    | .ok parts =>
      match parseSelectors rest with
      | .ok strs => .ok (joinWithSpace parts :: strs)
      | .error e => .error e
    | .error e => .error e
  | _ :: _ => .error (.diag "selector not array")

/-- One iteration body of the `switch key` statement in `parseACLUser`
(helpers.go lines 75-168): returns the updated model and, when the Go code
would add a diagnostic and return (or panic), the stopping outcome. -/
def handleKV (key : String) (v : GoVal) (m : ACLUserResourceModel) :
    ACLUserResourceModel × Option PErr :=
  if key = "flags" then
    match v with
    | .arr flags => parseFlags flags m
    | _ => (m, some (.diag "flags not array"))
  else if key = "passwords" then
    (m, none)
  else if key = "keys" then
    match v with
    | .str s => ({ m with keys := some s }, none)
    | .arr vv =>
      match allStrings vv with
      | some parts => ({ m with keys := some (joinWithSpace parts) }, none)
      | none => (m, some .panic)
    | .other => (m, some (.diag "keys not string or array"))
  else if key = "channels" then
    match v with
    | .str s => ({ m with channels := some s }, none)
    | .arr vv =>
      match allStrings vv with
      | some parts => ({ m with channels := some (joinWithSpace parts) }, none)
      | none => (m, some .panic)
    | .other => (m, some (.diag "channels not string or array"))
  else if key = "commands" then
    match v with
    | .str s => ({ m with commands := some s }, none)
    | _ => (m, some (.diag "commands not string"))
  else if key = "selectors" then
    match v with
    | .arr sels =>
      match parseSelectors sels with
      | .ok strs => ({ m with selectors := some strs }, none)
      | .error e => (m, some e)
    | _ => (m, some (.diag "selectors not array"))
  else
    (m, none)

/-- The `for i := 0; i < len(acl); i += 2` loop of `parseACLUser`: an odd
trailing element makes `acl[i+1]` panic, a non-string key makes
`acl[i].(string)` panic; otherwise dispatch on the key and continue unless
the iteration stopped with a diagnostic or panic. -/
def parseLoop : List GoVal → ACLUserResourceModel → ACLUserResourceModel × Option PErr
  | [], m => (m, none)
  | [_], m => (m, some .panic)
  | k :: v :: rest, m =>
    match k with
    | .str key =>
      match handleKV key v m with
      | (m', none) => parseLoop rest m'
      | (m', some e) => (m', some e)
    | _ => (m, some .panic)

/-- The function `parseACLUser` of `helpers.go` (lines 68-170): set
`Enabled` to the non-null value false, then run the key/value loop. -/
def parseACLUser (acl : List GoVal) (data : ACLUserResourceModel) :
    ACLUserResourceModel × Option PErr :=
  parseLoop acl { data with enabled := some false }

/-- The drift-suppression comparison of `ACLUserResource.Read`
(resource_acl_user.go lines 699-704): with `stateCommands` and
`dataCommands` the `ValueString()` views of the stored and freshly parsed
`commands` attributes, keep the stored attribute exactly when they differ
and the fresh value is the literal concatenation of `"-@all"`, one space,
and the stored value. -/
def normalizeReadCommands (stateCommandsAttr dataCommandsAttr : Option String) : Option String :=
  let stateCommands := stateCommandsAttr.getD ""
  let dataCommands := dataCommandsAttr.getD ""
  if stateCommands ≠ dataCommands ∧ dataCommands = "-@all " ++ stateCommands then
    stateCommandsAttr
  else
    dataCommandsAttr

/-- Error from the backend client as the resource code classifies it: the
not-found signal `redis.Nil`, or any other error carrying its message. -/
inductive RErr where
  | redisNil
  | other (msg : String)
deriving DecidableEq

/-- Message text of a backend error (Go `%s` formatting of the error). -/
def RErr.text : RErr → String
  | .redisNil => "redis: nil"
  | .other msg => msg

/-- Result pair of `UniversalClient.Do`: Go returns a value and an error,
and the code inspects both independently. -/
structure DoOutcome where
  result : Option GoVal
  err : Option RErr

/-- A backend call issued by a resource operation. -/
inductive Call where
  | doGetUser (username : String)
  | doWhoami
  | aclSetUser (username : String) (rules : List String)
  | aclDelUser (username : String)
deriving DecidableEq

/-- Outcome of a resource operation: success, or the first diagnostic
added via `resp.Diagnostics.AddError summary detail`. -/
inductive OpResult where
  | success
  | failure (summary detail : String)
deriving DecidableEq

/-- The backend behaviour visible to one resource operation: the outcomes
of the `ACL GETUSER` and `ACL WHOAMI` `Do` calls, and the error results of
`ACLSetUser` / `ACLDelUser`. -/
structure Backend where
  getuser : DoOutcome
  whoami : DoOutcome
  setUser : Option String
  delUser : Option String

/-- The method `ACLUserResource.checkUserExists`
(resource_acl_user.go lines 796-816), keeping the source's order of
checks: a nil result returns `(false, nil)` before the error is even
looked at; then a `redis.Nil` error returns `(false, nil)`; any other
error is wrapped with `failed to check if user exists`; otherwise the
user exists. -/
def checkUserExists (getuserOutcome : DoOutcome) : Bool × Option String :=
  match getuserOutcome.result with
  | none => (false, none)
  | some _ =>
    match getuserOutcome.err with
    | some e =>
      if e = RErr.redisNil then (false, none)
      else (false, some ("failed to check if user exists: " ++ e.text))
    | none => (true, none)

/-- The already-exists diagnostic text built by `ACLUserResource.Create`
(resource_acl_user.go lines 612-620). -/
def alreadyExistsMsg (username : String) : String :=
  "ACL user \x22" ++ username ++ "\x22 already exists\n\n" ++
  "This user exists but is not managed by Terraform. To manage this user with\n" ++
  "Terraform, please import it first:\n\n" ++
  "  terraform import redisacl_user.<resource_name> " ++ username ++ "\n\n" ++
  "Example:\n" ++
  "  terraform import redisacl_user.my_user " ++ username

/-- The method `ACLUserResource.Create` (resource_acl_user.go lines
593-637) after the plan has been read: existence check, then already-exists
refusal, then `ACLSetUser` with the built rules.  Returns the diagnostic
outcome and the backend calls issued. -/
def createOp (b : Backend) (data : ACLUserResourceModel) : OpResult × List Call :=
  let username := data.name.getD ""
  let calls := [Call.doGetUser username]
  let checked := checkUserExists b.getuser
  match checked.2 with
  | some e =>
    (.failure "Client Error" ("Unable to check if user exists, got error: " ++ e), calls)
  | none =>
    if checked.1 then
      (.failure "User Already Exists" (alreadyExistsMsg username), calls)
    else
      let rules := buildACLSetUserRules data
      let calls := calls ++ [Call.aclSetUser username rules]
      match b.setUser with
      | some e => (.failure "Client Error" ("Unable to create ACL user, got error: " ++ e), calls)
      | none => (.success, calls)

/-- The tail of `ACLUserResource.Update` after the self-mutation guard:
build the rules and call `ACLSetUser` (resource_acl_user.go lines
739-750). -/
def updateApply (b : Backend) (data : ACLUserResourceModel) (calls : List Call) :
    OpResult × List Call :=
  let rules := buildACLSetUserRules data
  let calls := calls ++ [Call.aclSetUser (data.name.getD "") rules]
  match b.setUser with
  | some e => (.failure "Client Error" ("Unable to update ACL user, got error: " ++ e), calls)
  | none => (.success, calls)

/-- The method `ACLUserResource.Update` (resource_acl_user.go lines
712-751) after the plan has been read: unless `allow_self_mutation` is
true, ask `ACL WHOAMI` and refuse when the answer equals the target name;
otherwise proceed to `ACLSetUser`. -/
def updateOp (b : Backend) (data : ACLUserResourceModel) : OpResult × List Call :=
  if data.allowSelfMutation.getD false then
    updateApply b data []
  else
    match b.whoami.err with
    | some e =>
      (.failure "Client Error" ("Unable to get current user, got error: " ++ e.text), [.doWhoami])
    | none =>
      match b.whoami.result with
      | some (.str currentUser) =>
        if currentUser = data.name.getD "" then
          (.failure "Self-Mutation Error"
            "Cannot modify the currently authenticated user without setting allow_self_mutation to true",
            [.doWhoami])
        else updateApply b data [.doWhoami]
      | _ => (.failure "Client Error" "Unable to parse current user response", [.doWhoami])

/-- The tail of `ACLUserResource.Delete` after the self-mutation guard:
call `ACLDelUser` (resource_acl_user.go lines 780-784). -/
def deleteApply (b : Backend) (data : ACLUserResourceModel) (calls : List Call) :
    OpResult × List Call :=
  let calls := calls ++ [Call.aclDelUser (data.name.getD "")]
  match b.delUser with
  | some e => (.failure "Client Error" ("Unable to delete ACL user, got error: " ++ e), calls)
  | none => (.success, calls)

/-- The method `ACLUserResource.Delete` (resource_acl_user.go lines
753-785) after the prior state has been read: unless `allow_self_mutation`
is true, ask `ACL WHOAMI` and refuse when the answer equals the target
name; otherwise proceed to `ACLDelUser`. -/
def deleteOp (b : Backend) (data : ACLUserResourceModel) : OpResult × List Call :=
  if data.allowSelfMutation.getD false then
    deleteApply b data []
  else
    match b.whoami.err with
    | some e =>
      (.failure "Client Error" ("Unable to get current user, got error: " ++ e.text), [.doWhoami])
    | none =>
      match b.whoami.result with
      | some (.str currentUser) =>
        if currentUser = data.name.getD "" then
          (.failure "Self-Mutation Error"
            "Cannot delete the currently authenticated user without setting allow_self_mutation to true",
            [.doWhoami])
        else deleteApply b data [.doWhoami]
      | _ => (.failure "Client Error" "Unable to parse current user response", [.doWhoami])

/-- The descriptor of claim C1 read literally: `enabled`, `keys`,
`channels` and `commands` explicitly set, `passwords` and `selectors`
unset. -/
def c1SetDescriptor : ACLUserResourceModel :=
  { enabled := some true, keys := some "~*", channels := some "&*", commands := some "+@all" }

/-- The descriptor matching the defaulting scenario the spec describes:
`enabled` set to true, every other attribute unset. -/
def c1UnsetDescriptor : ACLUserResourceModel :=
  { enabled := some true }

/-- C1 counterexample: for the descriptor with `enabled = true` and
`keys = "~*"`, `channels = "&*"`, `commands = "+@all"` explicitly set
(passwords and selectors unset), `buildACLSetUserRules` does NOT return
`["reset", "on", "~*", "&*", "+@all"]` — it emits `resetkeys`,
`resetchannels` and the `-@all` baseline before each set field's tokens. -/
theorem c1_counterexample :
    buildACLSetUserRules c1SetDescriptor
      = ["reset", "on", "resetkeys", "~*", "resetchannels", "&*", "-@all", "+@all"] ∧
    buildACLSetUserRules c1SetDescriptor ≠ ["reset", "on", "~*", "&*", "+@all"] := by
  decide

/-- C1 (amended): for the descriptor with `enabled = true` and `keys`,
`channels`, `commands` (as well as `passwords` and `selectors`) unset —
the case the spec's default-sentinel rule describes — `buildACLSetUserRules`
returns exactly `["reset", "on", "~*", "&*", "+@all"]`, with no
`resetkeys`, `resetchannels` or deny-all baseline token. -/
theorem c1_default_sentinels :
    buildACLSetUserRules c1UnsetDescriptor = ["reset", "on", "~*", "&*", "+@all"] := by
  decide

/-- C2: for every pair of strings (stored, fresh) compared by the resource
Read after parsing, if they differ and the fresh value is the literal
concatenation of the deny-all baseline, one space, and the stored value,
the stored commands value is kept; in every other case of inequality the
fresh value replaces it. -/
theorem c2_drift_suppression (stored fresh : String) :
    (stored ≠ fresh → fresh = "-@all " ++ stored →
      normalizeReadCommands (some stored) (some fresh) = some stored) ∧
    (stored ≠ fresh → fresh ≠ "-@all " ++ stored →
      normalizeReadCommands (some stored) (some fresh) = some fresh) := by
  constructor
  · intro h1 h2
    simp [normalizeReadCommands, h1, h2]
    exact fun h => h.symm
  · intro h1 h2
    simp [normalizeReadCommands, h1, h2]

/-- C2 witness: the drift rule at the spec's own example pair, and a
genuine-drift pair. -/
theorem c2_drift_suppression_witness :
    normalizeReadCommands (some "+get +set") (some "-@all +get +set") = some "+get +set" ∧
    normalizeReadCommands (some "+get") (some "+set") = some "+set" := by
  constructor
  · exact (c2_drift_suppression "+get +set" "-@all +get +set").1 (by decide) (by decide)
  · exact (c2_drift_suppression "+get" "+set").2 (by decide) (by decide)

/-- C5: for every ACL user descriptor, the first token of the rule list
returned by `buildACLSetUserRules` is `reset`. -/
theorem c5_first_token_reset (d : ACLUserResourceModel) :
    (buildACLSetUserRules d).head? = some "reset" := by
  rw [buildACLSetUserRules_eq]
  rfl

/-- C6: for every descriptor, `buildACLSetUserRules` places the commands
tokens between the channels and selectors tokens; the commands tokens are
the single `+@all` sentinel when `commands` is unset, and the deny-all
baseline `-@all` followed by the whitespace-split command tokens when it
is set — so `commands = ""` contributes exactly the single token
`-@all`. -/
theorem c6_commands_clause (d : ACLUserResourceModel) :
    buildACLSetUserRules d =
      "reset" :: (enabledSeg d.enabled ++ passwordsSeg d.passwords ++ keysSeg d.keys
        ++ channelsSeg d.channels ++ commandsSeg d.commands ++ selectorsSeg d.selectors) ∧
    commandsSeg none = ["+@all"] ∧
    (∀ s, commandsSeg (some s) = "-@all" :: fields s) ∧
    commandsSeg (some "") = ["-@all"] := by
  refine ⟨buildACLSetUserRules_eq d, rfl, fun s => rfl, ?_⟩
  decide

/-- C10: a full replace of `commands = ""` sends only the `-@all`
baseline, the backend then reports commands `-@all`, and the Read drift
suppression does not apply to the pair (stored `""`, fresh `-@all`) —
`-@all` is not `"-@all "` concatenated with the empty string — so the
fresh value replaces the stored empty string and drift is reported even
though nothing changed. -/
theorem c10_empty_commands_drift :
    buildACLSetUserRules { commands := some "" } = ["reset", "on", "~*", "&*", "-@all"] ∧
    ("-@all" : String) ≠ "-@all " ++ "" ∧
    normalizeReadCommands (some "") (some "-@all") = some "-@all" := by
  decide

/-- C3: for every backend and descriptor, when `allow_self_mutation` is
false or unset and the `ACL WHOAMI` result equals the target username,
Update and Delete both fail with the self-mutation error and no
`ACLSetUser` / `ACLDelUser` call is issued; when `allow_self_mutation` is
true the WHOAMI check is skipped entirely and the operation proceeds to
its backend mutation call. -/
theorem c3_self_mutation_guard (b : Backend) (d : ACLUserResourceModel) :
    ((d.allowSelfMutation = none ∨ d.allowSelfMutation = some false) →
      b.whoami.err = none →
      b.whoami.result = some (GoVal.str (d.name.getD "")) →
      ((updateOp b d).1 = OpResult.failure "Self-Mutation Error"
          "Cannot modify the currently authenticated user without setting allow_self_mutation to true" ∧
        (∀ n rs, Call.aclSetUser n rs ∉ (updateOp b d).2) ∧
        (deleteOp b d).1 = OpResult.failure "Self-Mutation Error"
          "Cannot delete the currently authenticated user without setting allow_self_mutation to true" ∧
        (∀ n, Call.aclDelUser n ∉ (deleteOp b d).2))) ∧
    (d.allowSelfMutation = some true →
      (Call.doWhoami ∉ (updateOp b d).2 ∧
        (updateOp b d).2 = [Call.aclSetUser (d.name.getD "") (buildACLSetUserRules d)] ∧
        Call.doWhoami ∉ (deleteOp b d).2 ∧
        (deleteOp b d).2 = [Call.aclDelUser (d.name.getD "")])) := by
  constructor
  · intro hA hE hR
    have hOff : d.allowSelfMutation.getD false = false := by
      rcases hA with h | h <;> simp [h]
    refine ⟨?_, ?_, ?_, ?_⟩
    · simp [updateOp, hOff, hE, hR]
    · intro n rs
      simp [updateOp, hOff, hE, hR]
    · simp [deleteOp, hOff, hE, hR]
    · intro n
      simp [deleteOp, hOff, hE, hR]
  · intro hT
    refine ⟨?_, ?_, ?_, ?_⟩
    · cases hs : b.setUser <;> simp [updateOp, hT, updateApply, hs]
    · cases hs : b.setUser <;> simp [updateOp, hT, updateApply, hs]
    · cases hd : b.delUser <;> simp [deleteOp, hT, deleteApply, hd]
    · cases hd : b.delUser <;> simp [deleteOp, hT, deleteApply, hd]

/-- Backend used by the C3 witness: WHOAMI answers `admin`, mutations
would succeed. -/
def c3Backend : Backend :=
  { getuser := ⟨none, none⟩, whoami := ⟨some (GoVal.str "admin"), none⟩,
    setUser := none, delUser := none }

/-- Descriptor used by the C3 witness: target user `admin`,
`allow_self_mutation` unset. -/
def c3Guarded : ACLUserResourceModel := { name := some "admin" }

/-- Descriptor used by the C3 witness: target user `admin`,
`allow_self_mutation` true. -/
def c3Bypassed : ACLUserResourceModel :=
  { name := some "admin", allowSelfMutation := some true }

/-- C3 witness: the guard trips for the unset flag on the authenticated
user, and is bypassed when the flag is true. -/
theorem c3_self_mutation_guard_witness :
    (updateOp c3Backend c3Guarded).1 = OpResult.failure "Self-Mutation Error"
      "Cannot modify the currently authenticated user without setting allow_self_mutation to true" ∧
    Call.aclSetUser "admin" (buildACLSetUserRules c3Guarded) ∉ (updateOp c3Backend c3Guarded).2 ∧
    (deleteOp c3Backend c3Guarded).1 = OpResult.failure "Self-Mutation Error"
      "Cannot delete the currently authenticated user without setting allow_self_mutation to true" ∧
    Call.aclDelUser "admin" ∉ (deleteOp c3Backend c3Guarded).2 ∧
    Call.doWhoami ∉ (updateOp c3Backend c3Bypassed).2 ∧
    (updateOp c3Backend c3Bypassed).2
      = [Call.aclSetUser "admin" (buildACLSetUserRules c3Bypassed)] ∧
    Call.doWhoami ∉ (deleteOp c3Backend c3Bypassed).2 ∧
    (deleteOp c3Backend c3Bypassed).2 = [Call.aclDelUser "admin"] := by
  have hG := (c3_self_mutation_guard c3Backend c3Guarded).1 (Or.inl rfl) rfl rfl
  have hB := (c3_self_mutation_guard c3Backend c3Bypassed).2 rfl
  exact ⟨hG.1, hG.2.1 "admin" (buildACLSetUserRules c3Guarded), hG.2.2.1, hG.2.2.2 "admin",
    hB.1, hB.2.1, hB.2.2.1, hB.2.2.2⟩

/-- The `ACL GETUSER` outcome a connectivity failure produces: both client
wrappers return a nil result together with the error. -/
def c4ConnOutcome : DoOutcome :=
  ⟨none, some (RErr.other "dial tcp 127.0.0.1:6379: connect: connection refused")⟩

/-- Backend used by the C4 evaluation: the existence check's `Do` call
fails with a connection error, the subsequent `ACLSetUser` succeeds. -/
def c4Backend : Backend :=
  { getuser := c4ConnOutcome, whoami := ⟨none, none⟩, setUser := none, delUser := none }

/-- Descriptor used by the C4 evaluation. -/
def c4Data : ACLUserResourceModel := { name := some "newuser" }

/-- C4: evaluation at the failing input.  When the existence check's
backend call fails with a connectivity error, the result accompanying the
error is nil, so `checkUserExists` hits its nil-result check first and
returns `(false, none)` — no wrapped `failed to check if user exists`
error — and Create proceeds to issue `ACLSetUser` and reports success,
contrary to the claim (and to the doc comment on `checkUserExists`
itself). -/
theorem c4_connectivity_error_swallowed :
    checkUserExists c4ConnOutcome = (false, none) ∧
    (createOp c4Backend c4Data).1 = OpResult.success ∧
    (createOp c4Backend c4Data).2
      = [Call.doGetUser "newuser", Call.aclSetUser "newuser" (buildACLSetUserRules c4Data)] := by
  decide


/-- The flags loop never touches the `passwords` field. -/
theorem parseFlags_passwords (fs : List GoVal) (m : ACLUserResourceModel) :
    (parseFlags fs m).1.passwords = m.passwords := by
  induction fs generalizing m with
  | nil => rfl
  | cons f rest ih =>
    cases f with
    | str s =>
      simp only [parseFlags]
      split <;> simp [ih]
    | arr l => rfl
    | other => rfl

/-- One iteration of the key/value switch never touches the `passwords`
field. -/
theorem handleKV_passwords (key : String) (v : GoVal) (m : ACLUserResourceModel) :
    (handleKV key v m).1.passwords = m.passwords := by
  unfold handleKV
  split_ifs
  · cases v with
    | str s => rfl
    | arr l => exact parseFlags_passwords l m
    | other => rfl
  · rfl
  · cases v with
    | str s => rfl
    | arr l => cases h : allStrings l <;> simp [h]
    | other => rfl
  · cases v with
    | str s => rfl
    | arr l => cases h : allStrings l <;> simp [h]
    | other => rfl
  · cases v <;> rfl
  · cases v with
    | str s => rfl
    | arr l => cases h : parseSelectors l <;> simp [h]
    | other => rfl
  · rfl

/-- The key/value loop never touches the `passwords` field. -/
theorem parseLoop_passwords (acl : List GoVal) (m : ACLUserResourceModel) :
    (parseLoop acl m).1.passwords = m.passwords := by
  induction acl, m using parseLoop.induct with
  | case1 m => rfl
  | case2 x m => rfl
  | case3 v rest m key m' hkv ih =>
    have hp : m'.passwords = m.passwords := by
      have h := handleKV_passwords key v m
      rw [hkv] at h
      exact h
    simp only [parseLoop, hkv]
    rw [ih, hp]
  | case4 v rest m key m' e hkv =>
    have hp : m'.passwords = m.passwords := by
      have h := handleKV_passwords key v m
      rw [hkv] at h
      exact h
    simp only [parseLoop, hkv]
    exact hp
  | case5 k v rest m hk =>
    cases k with
    | str s => exact absurd rfl (hk s)
    | arr l => rfl
    | other => rfl

/-- C7: for every input key/value sequence and prior model,
`parseACLUser` leaves the `Passwords` field exactly as it was before the
call — backend data never overwrites a previously known password list. -/
theorem c7_passwords_never_assigned (acl : List GoVal) (m : ACLUserResourceModel) :
    (parseACLUser acl m).1.passwords = m.passwords := by
  unfold parseACLUser
  exact parseLoop_passwords acl { m with enabled := some false }

/-- Encoding of a selector sub-sequence as the flattened key/value array
the backend delivers: each pair contributes its key string then its value
string. -/
def encodePairs : List (String × String) → List GoVal
  | [] => []
  | (k, v) :: rest => GoVal.str k :: GoVal.str v :: encodePairs rest

/-- On an encoded sub-sequence, the inner selector loop collects exactly
the values of the recognized keys, in the order the keys appear. -/
theorem parseOneSelector_encode (kvs : List (String × String)) :
    parseOneSelector (encodePairs kvs)
      = .ok ((kvs.filter
          (fun kv => decide (kv.1 = "commands" ∨ kv.1 = "keys" ∨ kv.1 = "channels"))).map
            Prod.snd) := by
  induction kvs with
  | nil => rfl
  | cons kv rest ih =>
    rcases kv with ⟨k, v⟩
    simp only [encodePairs, parseOneSelector, selValue, ih, List.filter_cons]
    by_cases h : k = "commands" ∨ k = "keys" ∨ k = "channels" <;> simp [h]

/-- On a list of encoded selectors, the outer selector loop produces one
space-joined string per selector, preserving selector order. -/
theorem parseSelectors_encode (sels : List (List (String × String))) :
    parseSelectors (sels.map (fun kvs => GoVal.arr (encodePairs kvs)))
      = .ok (sels.map (fun kvs =>
          joinWithSpace ((kvs.filter
            (fun kv => decide (kv.1 = "commands" ∨ kv.1 = "keys" ∨ kv.1 = "channels"))).map
              Prod.snd))) := by
  induction sels with
  | nil => rfl
  | cons kvs rest ih =>
    simp [parseSelectors, parseOneSelector_encode, ih]

/-- C8 counterexample: the selector sub-values are NOT concatenated in the
fixed order commands, keys, channels — for a selector whose sub-sequence
lists keys before commands the parser produces `"~k +get"`, not
`"+get ~k"`; and an explicitly present empty sub-value does contribute a
stray space: commands `""` then keys `"~k"` yields `" ~k"`, not `"~k"`. -/
theorem c8_counterexample :
    (parseACLUser
        [GoVal.str "selectors",
         GoVal.arr [GoVal.arr [GoVal.str "keys", GoVal.str "~k",
           GoVal.str "commands", GoVal.str "+get"]]] {}).1.selectors
      = some ["~k +get"] ∧
    (["~k +get"] : List String) ≠ ["+get ~k"] ∧
    (parseACLUser
        [GoVal.str "selectors",
         GoVal.arr [GoVal.arr [GoVal.str "commands", GoVal.str "",
           GoVal.str "keys", GoVal.str "~k"]]] {}).1.selectors
      = some [" ~k"] ∧
    (" ~k" : String) ≠ "~k" := by
  refine ⟨by decide, by decide, by decide, by decide⟩

/-- C8 (amended): for every selectors array of flattened key/value
sub-sequences, each selector's output string is the space-joined list of
the sub-values whose key is `commands`, `keys` or `channels`, taken in the
order the keys appear in the sub-sequence (not in a fixed order;
unrecognized keys contribute nothing, while a present-but-empty recognized
sub-value contributes an empty part), and the list of selector strings
preserves selector order; in particular a selector whose only entry is
`commands = "somecommand"` yields exactly the string `"somecommand"`. -/
theorem c8_selector_strings (sels : List (List (String × String)))
    (m : ACLUserResourceModel) :
    (parseACLUser
        [GoVal.str "selectors", GoVal.arr (sels.map (fun kvs => GoVal.arr (encodePairs kvs)))]
        m).1.selectors
      = some (sels.map (fun kvs =>
          joinWithSpace ((kvs.filter
            (fun kv => decide (kv.1 = "commands" ∨ kv.1 = "keys" ∨ kv.1 = "channels"))).map
              Prod.snd))) ∧
    (parseACLUser
        [GoVal.str "selectors", GoVal.arr [GoVal.arr [GoVal.str "commands", GoVal.str "somecommand"]]]
        m).1.selectors
      = some ["somecommand"] := by
  constructor
  · simp [parseACLUser, parseLoop, handleKV, parseSelectors_encode]
  · simp [parseACLUser, parseLoop, handleKV, parseSelectors, parseOneSelector, selValue,
      joinWithSpace]

/-- C9: for every value whose dynamic type does not match the expected
shape of a recognized field — flags not an array; keys or channels neither
string nor array; commands not a string; selectors not an array; a
selector element not an array; a selector sub-value neither string nor
array — the parser loop aborts immediately (whatever follows in the
sequence is never processed) with a Parse Error diagnostic naming the
offending field, the model is returned unchanged rather than silently
defaulted, and the outcome is the diagnostic, not a panic. -/
theorem c9_shape_mismatch_errors (v : GoVal) (m : ACLUserResourceModel) (rest : List GoVal) :
    (v.isArr = false →
      parseLoop (GoVal.str "flags" :: v :: rest) m = (m, some (PErr.diag "flags not array"))) ∧
    (v.isStr = false → v.isArr = false →
      parseLoop (GoVal.str "keys" :: v :: rest) m
        = (m, some (PErr.diag "keys not string or array"))) ∧
    (v.isStr = false → v.isArr = false →
      parseLoop (GoVal.str "channels" :: v :: rest) m
        = (m, some (PErr.diag "channels not string or array"))) ∧
    (v.isStr = false →
      parseLoop (GoVal.str "commands" :: v :: rest) m
        = (m, some (PErr.diag "commands not string"))) ∧
    (v.isArr = false →
      parseLoop (GoVal.str "selectors" :: v :: rest) m
        = (m, some (PErr.diag "selectors not array"))) ∧
    (∀ tail, v.isArr = false →
      parseLoop (GoVal.str "selectors" :: GoVal.arr (v :: tail) :: rest) m
        = (m, some (PErr.diag "selector not array"))) ∧
    (∀ k tail,
      parseLoop (GoVal.str "selectors" :: GoVal.arr [GoVal.arr (GoVal.str k :: GoVal.other :: tail)] :: rest) m
        = (m, some (PErr.diag "selector value not string or array"))) := by
  refine ⟨?_, ?_, ?_, ?_, ?_, ?_, ?_⟩
  · intro h
    cases v with
    | str s => simp [parseLoop, handleKV]
    | arr l => simp [GoVal.isArr] at h
    | other => simp [parseLoop, handleKV]
  · intro h1 h2
    cases v with
    | str s => simp [GoVal.isStr] at h1
    | arr l => simp [GoVal.isArr] at h2
    | other => simp [parseLoop, handleKV]
  · intro h1 h2
    cases v with
    | str s => simp [GoVal.isStr] at h1
    | arr l => simp [GoVal.isArr] at h2
    | other => simp [parseLoop, handleKV]
  · intro h
    cases v with
    | str s => simp [GoVal.isStr] at h
    | arr l => simp [parseLoop, handleKV]
    | other => simp [parseLoop, handleKV]
  · intro h
    cases v with
    | str s => simp [parseLoop, handleKV]
    | arr l => simp [GoVal.isArr] at h
    | other => simp [parseLoop, handleKV]
  · intro tail h
    cases v with
    | str s => simp [parseLoop, handleKV, parseSelectors]
    | arr l => simp [GoVal.isArr] at h
    | other => simp [parseLoop, handleKV, parseSelectors]
  · intro k tail
    simp [parseLoop, handleKV, parseSelectors, parseOneSelector, selValue]

/-- C9 witness: every mismatch case of the theorem at a concrete value of
a non-matching type, on the empty model. -/
theorem c9_shape_mismatch_errors_witness :
    parseLoop [GoVal.str "flags", GoVal.other] {} = ({}, some (PErr.diag "flags not array")) ∧
    parseLoop [GoVal.str "keys", GoVal.other] {}
      = ({}, some (PErr.diag "keys not string or array")) ∧
    parseLoop [GoVal.str "channels", GoVal.other] {}
      = ({}, some (PErr.diag "channels not string or array")) ∧
    parseLoop [GoVal.str "commands", GoVal.other] {}
      = ({}, some (PErr.diag "commands not string")) ∧
    parseLoop [GoVal.str "selectors", GoVal.other] {}
      = ({}, some (PErr.diag "selectors not array")) ∧
    parseLoop [GoVal.str "selectors", GoVal.arr [GoVal.other]] {}
      = ({}, some (PErr.diag "selector not array")) ∧
    parseLoop [GoVal.str "selectors", GoVal.arr [GoVal.arr [GoVal.str "commands", GoVal.other]]] {}
      = ({}, some (PErr.diag "selector value not string or array")) := by
  have h := c9_shape_mismatch_errors GoVal.other {} []
  exact ⟨h.1 rfl, h.2.1 rfl rfl, h.2.2.1 rfl rfl, h.2.2.2.1 rfl, h.2.2.2.2.1 rfl,
    h.2.2.2.2.2.1 [] rfl, h.2.2.2.2.2.2 "commands" []⟩
